import Mathlib

/-!
The `-Merge` aggregate function combinator

A shallow embedding of `src/AggregateFunctions/Combinators/AggregateFunctionMerge.h`.

`AggregateFunctionMerge` wraps a nested aggregate function (`nested_func`) and forwards
every virtual method to it.  The nested function is reached only through the
`IAggregateFunction` interface, whose declaration is not part of the source file, so the
interface is a structure of methods taken as a parameter.

Conventions of the embedding:

* aggregate states live in memory owned by the query engine; places, arenas and thread
  pools are addresses (`Nat`) into an environment `W` that only the nested function
  interprets;
* a method that can throw returns `Except Exception Unit` together with the environment
  (and the objects it received by mutable reference: a buffer, a column, the vector of
  places) as they are when it returns or throws; `noexcept` methods return the environment
  alone;
* the cancellation flag (`std::atomic<bool> &`) is the value the callee reads from it; what
  a nested function does with its thread pool is inside its own methods, which are
  parameters here;
* every virtual call of a state operation on the nested function is recorded, with its
  arguments, in the `calls` log of the `World`.

The method `getBaseAggregateFunctionWithSameStateRepresentation`, which returns a reference
to another function object, is not embedded.
-/

namespace DB

/-! ## Errors -/

/-- Error codes (`namespace ErrorCodes`).  The source names one code; any other code a
nested function may raise is `other n`. -/
inductive ErrorCode where
  | ILLEGAL_TYPE_OF_ARGUMENT
  | other (n : Int)
  deriving DecidableEq, Repr

/-- An exception: an error code and the formatted message. -/
structure Exception where
  code : ErrorCode
  message : String
  deriving DecidableEq, Repr

/-! ## Pointers, buffers, columns -/

/-- The address of an aggregate state (`AggregateDataPtr`). -/
abbrev AggregateDataPtr := Nat

/-- The address of a read-only aggregate state (`ConstAggregateDataPtr`). -/
abbrev ConstAggregateDataPtr := Nat

/-- The address of an arena (`Arena *`); `0` is the null pointer. -/
abbrev ArenaPtr := Nat

/-- A reference to a thread pool (`ThreadPool &`). -/
abbrev ThreadPoolRef := Nat

/-- A write buffer: the bytes written to it so far. -/
abbrev WriteBuffer := List Nat

/-- A read buffer: the bytes that remain to be read. -/
abbrev ReadBuffer := List Nat

/-- Columns, as far as the combinator and its callers look into them: a column of
aggregate states holds one state pointer per row (`ColumnAggregateFunction::getData()`),
a column of values holds one integer per row. -/
inductive IColumn where
  | ColumnAggregateFunction (data : List AggregateDataPtr)
  | ColumnVector (data : List Int)
  deriving DecidableEq, Repr

/-! ## Data types -/

/-- The data type of serialized aggregate states: it carries the aggregate function whose
states it holds.  `Fn` is the type of that function object. -/
structure DataTypeAggregateFunction (Fn : Type) where
  function : Fn
  name : String

/-- A data type (`IDataType`): either `DataTypeAggregateFunction` or any other type, of
which only the name matters here. -/
inductive IDataType (Fn : Type) where
  | aggregateFunction (t : DataTypeAggregateFunction Fn)
  | other (name : String)

variable {Fn W Field : Type}

/-- The method `DataTypeAggregateFunction::getFunction()`. -/
def DataTypeAggregateFunction.getFunction (t : DataTypeAggregateFunction Fn) : Fn :=
  t.function

/-- The method `IDataType::getName()`. -/
def IDataType.getName : IDataType Fn → String
  | .aggregateFunction t => t.name
  | .other name => name

/-- The cast `typeid_cast<const DataTypeAggregateFunction *>(p)`: the object itself when
its dynamic type is `DataTypeAggregateFunction`, the null pointer (`none`) otherwise. -/
def typeid_cast : IDataType Fn → Option (DataTypeAggregateFunction Fn)
  | .aggregateFunction t => some t
  | .other _ => none

/-! ## The interface of aggregate functions -/

/-- The interface `IAggregateFunction`, as far as `AggregateFunctionMerge` uses it.
`W` is the environment the function acts on (memory, arenas, thread pools).  The getters
are `const` methods without arguments.  `haveSameStateRepresentation` takes the function
object of a `DataTypeAggregateFunction`. -/
structure IAggregateFunction (Fn W : Type) where
  getName : String
  getResultType : IDataType Fn
  getStateType : IDataType Fn
  haveSameStateRepresentation : Fn → Bool
  isVersioned : Bool
  getDefaultVersion : Nat
  hasTrivialDestructor : Bool
  sizeOfData : Nat
  alignOfData : Nat
  isAbleToParallelizeMerge : Bool
  canOptimizeEqualKeysRanges : Bool
  allocatesMemoryInArena : Bool
  isState : Bool
  create : AggregateDataPtr → W → Except Exception Unit × W
  destroy : AggregateDataPtr → W → W
  destroyUpToState : AggregateDataPtr → W → W
  add : AggregateDataPtr → List IColumn → Nat → ArenaPtr → W → Except Exception Unit × W
  merge : AggregateDataPtr → ConstAggregateDataPtr → ArenaPtr → W → Except Exception Unit × W
  parallelizeMergePrepare : List AggregateDataPtr → ThreadPoolRef → Bool → W →
    Except Exception Unit × List AggregateDataPtr × W
  mergeParallel : AggregateDataPtr → ConstAggregateDataPtr → ThreadPoolRef → Bool → ArenaPtr →
    W → Except Exception Unit × W
  serialize : ConstAggregateDataPtr → WriteBuffer → Option Nat → W →
    Except Exception Unit × WriteBuffer × W
  deserialize : AggregateDataPtr → ReadBuffer → Option Nat → ArenaPtr → W →
    Except Exception Unit × ReadBuffer × W
  insertResultInto : AggregateDataPtr → IColumn → ArenaPtr → W →
    Except Exception Unit × IColumn × W

/-- A virtual call of a state operation on the nested function, with its arguments. -/
inductive Call where
  | create (place : AggregateDataPtr)
  | destroy (place : AggregateDataPtr)
  | destroyUpToState (place : AggregateDataPtr)
  | add (place : AggregateDataPtr) (columns : List IColumn) (row_num : Nat) (arena : ArenaPtr)
  | merge (place : AggregateDataPtr) (rhs : ConstAggregateDataPtr) (arena : ArenaPtr)
  | parallelizeMergePrepare (places : List AggregateDataPtr) (thread_pool : ThreadPoolRef)
      (is_cancelled : Bool)
  | mergeParallel (place : AggregateDataPtr) (rhs : ConstAggregateDataPtr)
      (thread_pool : ThreadPoolRef) (is_cancelled : Bool) (arena : ArenaPtr)
  | serialize (place : ConstAggregateDataPtr) (buf : WriteBuffer) (version : Option Nat)
  | deserialize (place : AggregateDataPtr) (buf : ReadBuffer) (version : Option Nat)
      (arena : ArenaPtr)
  | insertResultInto (place : AggregateDataPtr) (to_ : IColumn) (arena : ArenaPtr)
  deriving DecidableEq, Repr

/-- The program state: the environment the nested function acts on, and the log of the
state operations called on the nested function so far, oldest first. -/
structure World (W : Type) where
  env : W
  calls : List Call

namespace IAggregateFunction

/-- The call `nested_func->create(place)`. -/
def callCreate (F : IAggregateFunction Fn W) (place : AggregateDataPtr) (w : World W) :
    Except Exception Unit × World W :=
  let r := F.create place w.env
  (r.1, ⟨r.2, w.calls ++ [Call.create place]⟩)

/-- The call `nested_func->destroy(place)`. -/
def callDestroy (F : IAggregateFunction Fn W) (place : AggregateDataPtr) (w : World W) :
    World W :=
  ⟨F.destroy place w.env, w.calls ++ [Call.destroy place]⟩

/-- The call `nested_func->destroyUpToState(place)`. -/
def callDestroyUpToState (F : IAggregateFunction Fn W) (place : AggregateDataPtr)
    (w : World W) : World W :=
  ⟨F.destroyUpToState place w.env, w.calls ++ [Call.destroyUpToState place]⟩

/-- The call `nested_func->add(place, columns, row_num, arena)`. -/
def callAdd (F : IAggregateFunction Fn W) (place : AggregateDataPtr) (columns : List IColumn)
    (row_num : Nat) (arena : ArenaPtr) (w : World W) : Except Exception Unit × World W :=
  let r := F.add place columns row_num arena w.env
  (r.1, ⟨r.2, w.calls ++ [Call.add place columns row_num arena]⟩)

/-- The call `nested_func->merge(place, rhs, arena)`. -/
def callMerge (F : IAggregateFunction Fn W) (place : AggregateDataPtr)
    (rhs : ConstAggregateDataPtr) (arena : ArenaPtr) (w : World W) :
    Except Exception Unit × World W :=
  let r := F.merge place rhs arena w.env
  (r.1, ⟨r.2, w.calls ++ [Call.merge place rhs arena]⟩)

/-- The call `nested_func->parallelizeMergePrepare(places, thread_pool, is_cancelled)`. -/
def callParallelizeMergePrepare (F : IAggregateFunction Fn W) (places : List AggregateDataPtr)
    (thread_pool : ThreadPoolRef) (is_cancelled : Bool) (w : World W) :
    Except Exception Unit × List AggregateDataPtr × World W :=
  let r := F.parallelizeMergePrepare places thread_pool is_cancelled w.env
  (r.1, r.2.1,
    ⟨r.2.2, w.calls ++ [Call.parallelizeMergePrepare places thread_pool is_cancelled]⟩)

/-- The call `nested_func->merge(place, rhs, thread_pool, is_cancelled, arena)`. -/
def callMergeParallel (F : IAggregateFunction Fn W) (place : AggregateDataPtr)
    (rhs : ConstAggregateDataPtr) (thread_pool : ThreadPoolRef) (is_cancelled : Bool)
    (arena : ArenaPtr) (w : World W) : Except Exception Unit × World W :=
  let r := F.mergeParallel place rhs thread_pool is_cancelled arena w.env
  (r.1, ⟨r.2, w.calls ++ [Call.mergeParallel place rhs thread_pool is_cancelled arena]⟩)

/-- The call `nested_func->serialize(place, buf, version)`. -/
def callSerialize (F : IAggregateFunction Fn W) (place : ConstAggregateDataPtr)
    (buf : WriteBuffer) (version : Option Nat) (w : World W) :
    Except Exception Unit × WriteBuffer × World W :=
  let r := F.serialize place buf version w.env
  (r.1, r.2.1, ⟨r.2.2, w.calls ++ [Call.serialize place buf version]⟩)

/-- The call `nested_func->deserialize(place, buf, version, arena)`. -/
def callDeserialize (F : IAggregateFunction Fn W) (place : AggregateDataPtr)
    (buf : ReadBuffer) (version : Option Nat) (arena : ArenaPtr) (w : World W) :
    Except Exception Unit × ReadBuffer × World W :=
  let r := F.deserialize place buf version arena w.env
  (r.1, r.2.1, ⟨r.2.2, w.calls ++ [Call.deserialize place buf version arena]⟩)

/-- The call `nested_func->insertResultInto(place, to, arena)`. -/
def callInsertResultInto (F : IAggregateFunction Fn W) (place : AggregateDataPtr)
    (to_ : IColumn) (arena : ArenaPtr) (w : World W) :
    Except Exception Unit × IColumn × World W :=
  let r := F.insertResultInto place to_ arena w.env
  (r.1, r.2.1, ⟨r.2.2, w.calls ++ [Call.insertResultInto place to_ arena]⟩)

end IAggregateFunction

/-! ## The combinator -/

/-- The class `AggregateFunctionMerge`: the members of the base class that the
constructor fills (`argument_types`, `parameters`, `result_type`) and `nested_func`. -/
structure AggregateFunctionMerge (Fn W Field : Type) where
  argument_types : List (IDataType Fn)
  parameters : List Field
  result_type : IDataType Fn
  nested_func : IAggregateFunction Fn W

namespace AggregateFunctionMerge

/-- The static method `createResultType`. -/
def createResultType (nested_ : IAggregateFunction Fn W) : IDataType Fn :=
  nested_.getResultType

/-- The method `getName`. -/
def getName (self : AggregateFunctionMerge Fn W Field) : String :=
  self.nested_func.getName ++ "Merge"

/-- The method `isVersioned`. -/
def isVersioned (self : AggregateFunctionMerge Fn W Field) : Bool :=
  self.nested_func.isVersioned

/-- The method `getDefaultVersion`. -/
def getDefaultVersion (self : AggregateFunctionMerge Fn W Field) : Nat :=
  self.nested_func.getDefaultVersion

/-- The method `getStateType`. -/
def getStateType (self : AggregateFunctionMerge Fn W Field) : IDataType Fn :=
  self.nested_func.getStateType

/-- The message of the exception the constructor throws: the format string with
`argument->getName()`, `getName()` and `getStateType()->getName()` filled in. -/
def illegalTypeMessage (self : AggregateFunctionMerge Fn W Field) (argument : IDataType Fn) :
    String :=
  "Illegal type " ++ argument.getName ++ " of argument for aggregate function " ++
    self.getName ++ ", expected " ++ self.getStateType.getName ++ " or equivalent type"

/-- The constructor `AggregateFunctionMerge(nested_, argument, params_)`.  The member
initialisers build the object; the body then checks the argument type and throws
`ILLEGAL_TYPE_OF_ARGUMENT` when the cast gives the null pointer or the nested function
reports a different state representation. -/
def construct (nested_ : IAggregateFunction Fn W) (argument : IDataType Fn)
    (params_ : List Field) (w : World W) :
    Except Exception (AggregateFunctionMerge Fn W Field) × World W :=
  let self : AggregateFunctionMerge Fn W Field :=
    ⟨[argument], params_, createResultType nested_, nested_⟩
  match typeid_cast argument with
  | none => (.error ⟨.ILLEGAL_TYPE_OF_ARGUMENT, self.illegalTypeMessage argument⟩, w)
  | some data_type =>
    if !self.nested_func.haveSameStateRepresentation data_type.getFunction then
      (.error ⟨.ILLEGAL_TYPE_OF_ARGUMENT, self.illegalTypeMessage argument⟩, w)
    else
      (.ok self, w)

/-- The method `create`. -/
def create (self : AggregateFunctionMerge Fn W Field) (place : AggregateDataPtr)
    (w : World W) : Except Exception Unit × World W :=
  self.nested_func.callCreate place w

/-- The method `destroy`. -/
def destroy (self : AggregateFunctionMerge Fn W Field) (place : AggregateDataPtr)
    (w : World W) : World W :=
  self.nested_func.callDestroy place w

/-- The method `destroyUpToState`. -/
def destroyUpToState (self : AggregateFunctionMerge Fn W Field) (place : AggregateDataPtr)
    (w : World W) : World W :=
  self.nested_func.callDestroyUpToState place w

/-- The method `hasTrivialDestructor`. -/
def hasTrivialDestructor (self : AggregateFunctionMerge Fn W Field) : Bool :=
  self.nested_func.hasTrivialDestructor

/-- The method `sizeOfData`. -/
def sizeOfData (self : AggregateFunctionMerge Fn W Field) : Nat :=
  self.nested_func.sizeOfData

/-- The method `alignOfData`. -/
def alignOfData (self : AggregateFunctionMerge Fn W Field) : Nat :=
  self.nested_func.alignOfData

/-- Modelled from the spec: the partial state an input row refers to, used by the body of
`add`, which is not in the source file.  The first column must be a column of aggregate
states, and the row is its entry `getData()[row_num]`; any other input refers to no
state. -/
def rowState (columns : List IColumn) (row_num : Nat) : Option ConstAggregateDataPtr :=
  match columns with
  | IColumn.ColumnAggregateFunction data :: _ => data.get? row_num
  | _ => none

/-- Modelled from the spec: the body of the method `add`, which the header only declares
(line 102); its definition is not in the source file.  The spec says that `add` interprets
the incoming row as a reference to an existing partial state of the same representation
and folds it into the accumulator via the nested `merge`, not the nested `add`.  The spec
says nothing about a row that does not refer to a partial state: there the model gives
`none`. -/
def add (self : AggregateFunctionMerge Fn W Field) (place : AggregateDataPtr)
    (columns : List IColumn) (row_num : Nat) (arena : ArenaPtr) (w : World W) :
    Option (Except Exception Unit × World W) :=
  match rowState columns row_num with
  | some rhs => some (self.nested_func.callMerge place rhs arena w)
  | none => none

/-- The method `merge` (sequential overload). -/
def merge (self : AggregateFunctionMerge Fn W Field) (place : AggregateDataPtr)
    (rhs : ConstAggregateDataPtr) (arena : ArenaPtr) (w : World W) :
    Except Exception Unit × World W :=
  self.nested_func.callMerge place rhs arena w

/-- The method `isAbleToParallelizeMerge`. -/
def isAbleToParallelizeMerge (self : AggregateFunctionMerge Fn W Field) : Bool :=
  self.nested_func.isAbleToParallelizeMerge

/-- The method `canOptimizeEqualKeysRanges`. -/
def canOptimizeEqualKeysRanges (self : AggregateFunctionMerge Fn W Field) : Bool :=
  self.nested_func.canOptimizeEqualKeysRanges

/-- The method `parallelizeMergePrepare`. -/
def parallelizeMergePrepare (self : AggregateFunctionMerge Fn W Field)
    (places : List AggregateDataPtr) (thread_pool : ThreadPoolRef) (is_cancelled : Bool)
    (w : World W) : Except Exception Unit × List AggregateDataPtr × World W :=
  self.nested_func.callParallelizeMergePrepare places thread_pool is_cancelled w

/-- The method `merge` (overload with a thread pool and a cancellation flag). -/
def mergeParallel (self : AggregateFunctionMerge Fn W Field) (place : AggregateDataPtr)
    (rhs : ConstAggregateDataPtr) (thread_pool : ThreadPoolRef) (is_cancelled : Bool)
    (arena : ArenaPtr) (w : World W) : Except Exception Unit × World W :=
  self.nested_func.callMergeParallel place rhs thread_pool is_cancelled arena w

/-- The method `serialize`. -/
def serialize (self : AggregateFunctionMerge Fn W Field) (place : ConstAggregateDataPtr)
    (buf : WriteBuffer) (version : Option Nat) (w : World W) :
    Except Exception Unit × WriteBuffer × World W :=
  self.nested_func.callSerialize place buf version w

/-- The method `deserialize`. -/
def deserialize (self : AggregateFunctionMerge Fn W Field) (place : AggregateDataPtr)
    (buf : ReadBuffer) (version : Option Nat) (arena : ArenaPtr) (w : World W) :
    Except Exception Unit × ReadBuffer × World W :=
  self.nested_func.callDeserialize place buf version arena w

/-- The method `insertResultInto`. -/
def insertResultInto (self : AggregateFunctionMerge Fn W Field) (place : AggregateDataPtr)
    (to_ : IColumn) (arena : ArenaPtr) (w : World W) :
    Except Exception Unit × IColumn × World W :=
  self.nested_func.callInsertResultInto place to_ arena w

/-- The method `allocatesMemoryInArena`. -/
def allocatesMemoryInArena (self : AggregateFunctionMerge Fn W Field) : Bool :=
  self.nested_func.allocatesMemoryInArena

/-- The method `getNestedFunction`. -/
def getNestedFunction (self : AggregateFunctionMerge Fn W Field) : IAggregateFunction Fn W :=
  self.nested_func

/-- The method `isState`. -/
def isState (self : AggregateFunctionMerge Fn W Field) : Bool :=
  self.nested_func.isState

end AggregateFunctionMerge

/-! ## Sequences of calls made by a caller -/

/-- Runs `step` on each state of the list, in order.  An exception ends the sequence: it
propagates to the caller, and the remaining states are not merged. -/
def mergeEach {X : Type} (step : ConstAggregateDataPtr → X → Except Exception Unit × X) :
    List ConstAggregateDataPtr → X → Except Exception Unit × X
  | [], x => (.ok (), x)
  | rhs :: rest, x =>
    match step rhs x with
    | (.ok _, x') => mergeEach step rest x'
    | (.error e, x') => (.error e, x')

/-- The extracted result after a step `r`: when the step returned, whatever
`insertResultInto` returns or throws and the column it leaves; when the step threw, its
exception and the column untouched. -/
def extractAfter {X : Type} (r : Except Exception Unit × X)
    (insertResultInto : X → Except Exception Unit × IColumn × X) (to_ : IColumn) :
    Except Exception Unit × IColumn :=
  match r with
  | (.ok _, x) => ((insertResultInto x).1, (insertResultInto x).2.1)
  | (.error e, _) => (.error e, to_)

/-- A caller creates a state at `place` through the combinator, merges the states of the
list into it through the combinator, one after the other, and extracts the result through
the combinator into the column `to_`. -/
def AggregateFunctionMerge.createMergeExtract (self : AggregateFunctionMerge Fn W Field)
    (place : AggregateDataPtr) (states : List ConstAggregateDataPtr) (to_ : IColumn)
    (arena : ArenaPtr) (w : World W) : Except Exception Unit × IColumn :=
  match self.create place w with
  | (.ok _, w1) =>
    extractAfter (mergeEach (fun rhs => self.merge place rhs arena) states w1)
      (self.insertResultInto place to_ arena) to_
  | (.error e, _) => (.error e, to_)

/-- The round-trip law for version `version`, for any implementation of `serialize`,
`create`, `deserialize` and `insertResultInto` over a program state `X`: whenever a state
`s` is serialized into an empty buffer and a state is created at another place, reading
the written bytes back into that place succeeds, and the state read has the same
`insertResultInto` output as `s` had. -/
def RoundTripLaw {X : Type}
    (serialize : ConstAggregateDataPtr → WriteBuffer → Option Nat → X →
      Except Exception Unit × WriteBuffer × X)
    (create : AggregateDataPtr → X → Except Exception Unit × X)
    (deserialize : AggregateDataPtr → ReadBuffer → Option Nat → ArenaPtr → X →
      Except Exception Unit × ReadBuffer × X)
    (insertResultInto : AggregateDataPtr → IColumn → ArenaPtr → X →
      Except Exception Unit × IColumn × X)
    (version : Option Nat) : Prop :=
  ∀ (x : X) (s : ConstAggregateDataPtr) (place : AggregateDataPtr) (arena : ArenaPtr)
    (to_ : IColumn), s ≠ place →
    (serialize s [] version x).1 = .ok () →
    (create place (serialize s [] version x).2.2).1 = .ok () →
    (deserialize place (serialize s [] version x).2.1 version arena
        (create place (serialize s [] version x).2.2).2).1 = .ok () ∧
      extractAfter
          (.ok (), (deserialize place (serialize s [] version x).2.1 version arena
            (create place (serialize s [] version x).2.2).2).2.2)
          (insertResultInto place to_ arena) to_ =
        extractAfter (.ok (), x) (insertResultInto s to_ arena) to_

/-! ## A nested function for the worked examples: the exact integer sum -/

/-- Modelled from the spec: the variable-length encoding of an unsigned integer in the
byte stream (the spec calls it a varint): seven bits a byte, least significant first, the
high bit set on every byte but the last. -/
def writeVarUInt (n : Nat) : List Nat :=
  if n < 128 then [n] else (n % 128 + 128) :: writeVarUInt (n / 128)
termination_by n
decreasing_by omega

/-- Modelled from the spec: reads a varint from the front of the bytes; `none` when the
bytes end before the varint does. -/
def readVarUInt : List Nat → Option (Nat × List Nat)
  | [] => none
  | b :: rest =>
    if b < 128 then some (b, rest)
    else
      match readVarUInt rest with
      | some (v, r) => some (b - 128 + 128 * v, r)
      | none => none

/-- Modelled from the spec: a signed integer as an unsigned one, for the byte stream:
`0, -1, 1, -2, 2, ...` become `0, 1, 2, 3, 4, ...`. -/
def zigZag (z : Int) : Nat :=
  if 0 ≤ z then 2 * z.toNat else 2 * (-z).toNat - 1

/-- Modelled from the spec: the inverse of `zigZag`. -/
def unZigZag (n : Nat) : Int :=
  if n % 2 = 0 then (n / 2 : Nat) else -((n / 2 + 1 : Nat) : Int)

/-- Modelled from the spec: the environment of the sum: the memory of the states, one
exact integer at each address. -/
structure SumEnv where
  heap : AggregateDataPtr → Int

/-- Modelled from the spec: the nested function of the worked example, an exact integer
sum; its code is not in the source file.  The state is one integer: `create` sets it to
zero, `add` adds the row of a value column, `merge` adds the other state, `serialize`
writes the integer as a varint and `deserialize` reads it back (a truncated varint is
malformed input), `insertResultInto` appends the integer to a value column.  The function
is not versioned, keeps nothing in the arena, and its parallel `merge` does what the
sequential one does unless the cancellation flag is set.  `Fn` is the name of the
function a state type carries. -/
def AggregateFunctionSum : IAggregateFunction String SumEnv where
  getName := "sum"
  getResultType := .other "Int64"
  getStateType := .aggregateFunction ⟨"sum", "AggregateFunction(sum, Int64)"⟩
  haveSameStateRepresentation := fun rhs => rhs == "sum"
  isVersioned := false
  getDefaultVersion := 0
  hasTrivialDestructor := true
  sizeOfData := 8
  alignOfData := 8
  isAbleToParallelizeMerge := false
  canOptimizeEqualKeysRanges := false
  allocatesMemoryInArena := false
  isState := false
  create := fun place env => (.ok (), ⟨Function.update env.heap place 0⟩)
  destroy := fun _ env => env
  destroyUpToState := fun _ env => env
  add := fun place columns row_num _ env =>
    match columns with
    | IColumn.ColumnVector data :: _ =>
      match data.get? row_num with
      | some v => (.ok (), ⟨Function.update env.heap place (env.heap place + v)⟩)
      | none => (.error ⟨.other 49, "row out of range"⟩, env)
    | _ => (.error ⟨.ILLEGAL_TYPE_OF_ARGUMENT, "not a column of values"⟩, env)
  merge := fun place rhs _ env =>
    (.ok (), ⟨Function.update env.heap place (env.heap place + env.heap rhs)⟩)
  parallelizeMergePrepare := fun places _ _ env => (.ok (), places, env)
  mergeParallel := fun place rhs _ is_cancelled _ env =>
    if is_cancelled then (.ok (), env)
    else (.ok (), ⟨Function.update env.heap place (env.heap place + env.heap rhs)⟩)
  serialize := fun place buf _ env => (.ok (), buf ++ writeVarUInt (zigZag (env.heap place)), env)
  deserialize := fun place buf _ _ env =>
    match readVarUInt buf with
    | some (n, rest) => (.ok (), rest, ⟨Function.update env.heap place (unZigZag n)⟩)
    | none => (.error ⟨.other 32, "attempt to read after the end of the buffer"⟩, buf, env)
  insertResultInto := fun place to_ _ env =>
    match to_ with
    | IColumn.ColumnVector data => (.ok (), IColumn.ColumnVector (data ++ [env.heap place]), env)
    | c => (.error ⟨.other 49, "not a column of values"⟩, c, env)

/-- The combinator around the sum, as the constructor builds it for the argument type
`AggregateFunction(sum, Int64)` and no parameters. -/
def sumMerge : AggregateFunctionMerge String SumEnv Nat :=
  ⟨[AggregateFunctionSum.getStateType], [], AggregateFunctionSum.getResultType,
    AggregateFunctionSum⟩

/-- A memory with the partial sums 3, 4 and 5 at the addresses 1, 2 and 3, and zero
elsewhere; no call made yet. -/
def sumWorld345 : World SumEnv :=
  ⟨⟨fun p => if p = 1 then 3 else if p = 2 then 4 else if p = 3 then 5 else 0⟩, []⟩

/-! ## Construction -/

/-- The constructor stores the nested function it was given. -/
theorem AggregateFunctionMerge.construct_nested_func (nested_ : IAggregateFunction Fn W)
    (argument : IDataType Fn) (params_ : List Field) (w : World W)
    (self : AggregateFunctionMerge Fn W Field)
    (h : (construct nested_ argument params_ w).1 = .ok self) :
    self.nested_func = nested_ := by
  unfold construct at h
  cases argument with
  | other name => simp [typeid_cast] at h
  | aggregateFunction t =>
    simp only [typeid_cast] at h
    split at h
    · simp at h
    · simp only [Except.ok.injEq] at h
      rw [← h]

/-- C1: constructing the combinator succeeds exactly when the argument type is a
`DataTypeAggregateFunction` and the nested function reports the same state representation
as the function of that type; in every other case construction throws
`ILLEGAL_TYPE_OF_ARGUMENT`; and the constructor calls no state operation of the nested
function: the environment and the log of calls are what they were. -/
theorem AggregateFunctionMerge.construct_succeeds_iff (nested_ : IAggregateFunction Fn W)
    (argument : IDataType Fn) (params_ : List Field) (w : World W) :
    ((∃ self, (construct nested_ argument params_ w).1 = .ok self) ↔
      ∃ t, argument = IDataType.aggregateFunction t ∧
        nested_.haveSameStateRepresentation t.getFunction = true) ∧
    ((∃ message, (construct nested_ argument params_ w).1 =
        .error ⟨ErrorCode.ILLEGAL_TYPE_OF_ARGUMENT, message⟩) ↔
      ¬ ∃ t, argument = IDataType.aggregateFunction t ∧
        nested_.haveSameStateRepresentation t.getFunction = true) ∧
    (construct nested_ argument params_ w).2 = w := by
  cases argument with
  | other name => simp [construct, typeid_cast]
  | aggregateFunction t =>
    cases hrep : nested_.haveSameStateRepresentation t.getFunction <;>
      simp [construct, typeid_cast, hrep]

/-! ## Forwarded getters -/

/-- C4: the combinator reports the size, the alignment and the triviality of the
destructor of the nested function's state, unchanged: it adds no state of its own. -/
theorem AggregateFunctionMerge.layout_eq_nested (self : AggregateFunctionMerge Fn W Field) :
    self.sizeOfData = self.nested_func.sizeOfData ∧
    self.alignOfData = self.nested_func.alignOfData ∧
    self.hasTrivialDestructor = self.nested_func.hasTrivialDestructor :=
  ⟨rfl, rfl, rfl⟩

/-- C5: the name of the combinator is the name of the nested function followed by the
fixed suffix `Merge`: the nested name is a prefix of it, `Merge` is a suffix of it, what
follows the nested name is `Merge` whatever the nested function, the argument type and the
parameters are, and it is five characters longer than the nested name. -/
theorem AggregateFunctionMerge.getName_eq (self : AggregateFunctionMerge Fn W Field) :
    self.getName = self.nested_func.getName ++ "Merge" ∧
    self.nested_func.getName.data <+: self.getName.data ∧
    "Merge".data <:+ self.getName.data ∧
    self.getName.data.drop self.nested_func.getName.length = ['M', 'e', 'r', 'g', 'e'] ∧
    self.getName.length = self.nested_func.getName.length + 5 := by
  refine ⟨rfl, ?_, ?_, ?_, ?_⟩
  · exact ⟨"Merge".data, by simp [getName, String.data_append]⟩
  · exact ⟨self.nested_func.getName.data, by simp [getName, String.data_append]⟩
  · have h : self.getName.data = self.nested_func.getName.data ++ "Merge".data := by
      simp [getName, String.data_append]
    rw [h]
    exact List.drop_left self.nested_func.getName.data "Merge".data
  · have h : "Merge".length = 5 := rfl
    simp [getName, String.length_append, h]

/-- C10: the combinator is versioned exactly when the nested function is, and its default
version is the nested function's. -/
theorem AggregateFunctionMerge.version_eq_nested (self : AggregateFunctionMerge Fn W Field) :
    self.isVersioned = self.nested_func.isVersioned ∧
    self.getDefaultVersion = self.nested_func.getDefaultVersion :=
  ⟨rfl, rfl⟩

/-! ## Forwarded state operations -/

/-- The extracted result after a call on the nested function is the extracted result of
the nested function's own operations on the environment. -/
theorem extractAfter_call (F : IAggregateFunction Fn W) (r : Except Exception Unit × W)
    (calls : List Call) (place : AggregateDataPtr) (to_ : IColumn) (arena : ArenaPtr) :
    extractAfter (r.1, (⟨r.2, calls⟩ : World W)) (F.callInsertResultInto place to_ arena) to_ =
      extractAfter r (F.insertResultInto place to_ arena) to_ := by
  rcases r with ⟨_ | _, x⟩ <;> rfl

/-- C2: when the row refers to a partial state `p`, `add` of the combinator does what
`merge(place, p, arena)` of the nested function does: same outcome, same environment
afterwards; the one call it makes on the nested function is that `merge`, and it makes no
call of the nested `add`. -/
theorem AggregateFunctionMerge.add_is_nested_merge (self : AggregateFunctionMerge Fn W Field)
    (place : AggregateDataPtr) (columns : List IColumn) (row_num : Nat) (arena : ArenaPtr)
    (w : World W) (p : ConstAggregateDataPtr) (hrow : rowState columns row_num = some p) :
    ∃ r, self.add place columns row_num arena w = some r ∧
      r.1 = (self.nested_func.merge place p arena w.env).1 ∧
      r.2.env = (self.nested_func.merge place p arena w.env).2 ∧
      r.2.calls = w.calls ++ [Call.merge place p arena] ∧
      ∀ q cols n a, Call.add q cols n a ∈ r.2.calls → Call.add q cols n a ∈ w.calls := by
  refine ⟨self.nested_func.callMerge place p arena w, ?_, rfl, rfl, rfl, ?_⟩
  · simp [add, hrow]
  · intro q cols n a hmem
    simpa [IAggregateFunction.callMerge] using hmem

/-- A row of a column of states that refers to the state at address 2, folded into the
state at address 0 through the combinator around the sum. -/
theorem AggregateFunctionMerge.add_is_nested_merge_witness :
    rowState [IColumn.ColumnAggregateFunction [1, 2, 3]] 1 = some 2 ∧
    ∃ r, sumMerge.add 0 [IColumn.ColumnAggregateFunction [1, 2, 3]] 1 0 sumWorld345 = some r ∧
      r.1 = (sumMerge.nested_func.merge 0 2 0 sumWorld345.env).1 ∧
      r.2.env = (sumMerge.nested_func.merge 0 2 0 sumWorld345.env).2 ∧
      r.2.calls = sumWorld345.calls ++ [Call.merge 0 2 0] ∧
      ∀ q cols n a, Call.add q cols n a ∈ r.2.calls → Call.add q cols n a ∈ sumWorld345.calls :=
  ⟨rfl, AggregateFunctionMerge.add_is_nested_merge sumMerge 0
    [IColumn.ColumnAggregateFunction [1, 2, 3]] 1 0 sumWorld345 2 rfl⟩

/-- C8: a combinator that was constructed adds no failure of its own: `create`, both
overloads of `merge`, `parallelizeMergePrepare`, `serialize`, `deserialize` and
`insertResultInto` return or throw exactly what the same operation of the nested function
returns or throws on the same input, and leave the environment and the objects passed by
reference exactly as the nested function leaves them. -/
theorem AggregateFunctionMerge.no_new_failure_modes (nested_ : IAggregateFunction Fn W)
    (argument : IDataType Fn) (params_ : List Field) (w0 : World W)
    (self : AggregateFunctionMerge Fn W Field)
    (h : (construct nested_ argument params_ w0).1 = .ok self) :
    (∀ place w, (self.create place w).1 = (nested_.create place w.env).1 ∧
      (self.create place w).2.env = (nested_.create place w.env).2) ∧
    (∀ place rhs arena w, (self.merge place rhs arena w).1 = (nested_.merge place rhs arena w.env).1 ∧
      (self.merge place rhs arena w).2.env = (nested_.merge place rhs arena w.env).2) ∧
    (∀ place rhs thread_pool is_cancelled arena w,
      (self.mergeParallel place rhs thread_pool is_cancelled arena w).1 =
        (nested_.mergeParallel place rhs thread_pool is_cancelled arena w.env).1 ∧
      (self.mergeParallel place rhs thread_pool is_cancelled arena w).2.env =
        (nested_.mergeParallel place rhs thread_pool is_cancelled arena w.env).2) ∧
    (∀ places thread_pool is_cancelled w,
      (self.parallelizeMergePrepare places thread_pool is_cancelled w).1 =
        (nested_.parallelizeMergePrepare places thread_pool is_cancelled w.env).1 ∧
      (self.parallelizeMergePrepare places thread_pool is_cancelled w).2.1 =
        (nested_.parallelizeMergePrepare places thread_pool is_cancelled w.env).2.1 ∧
      (self.parallelizeMergePrepare places thread_pool is_cancelled w).2.2.env =
        (nested_.parallelizeMergePrepare places thread_pool is_cancelled w.env).2.2) ∧
    (∀ place buf version w,
      (self.serialize place buf version w).1 = (nested_.serialize place buf version w.env).1 ∧
      (self.serialize place buf version w).2.1 = (nested_.serialize place buf version w.env).2.1 ∧
      (self.serialize place buf version w).2.2.env =
        (nested_.serialize place buf version w.env).2.2) ∧
    (∀ place buf version arena w,
      (self.deserialize place buf version arena w).1 =
        (nested_.deserialize place buf version arena w.env).1 ∧
      (self.deserialize place buf version arena w).2.1 =
        (nested_.deserialize place buf version arena w.env).2.1 ∧
      (self.deserialize place buf version arena w).2.2.env =
        (nested_.deserialize place buf version arena w.env).2.2) ∧
    (∀ place to_ arena w,
      (self.insertResultInto place to_ arena w).1 =
        (nested_.insertResultInto place to_ arena w.env).1 ∧
      (self.insertResultInto place to_ arena w).2.1 =
        (nested_.insertResultInto place to_ arena w.env).2.1 ∧
      (self.insertResultInto place to_ arena w).2.2.env =
        (nested_.insertResultInto place to_ arena w.env).2.2) := by
  have hnested := construct_nested_func nested_ argument params_ w0 self h
  subst hnested
  exact ⟨fun _ _ => ⟨rfl, rfl⟩, fun _ _ _ _ => ⟨rfl, rfl⟩, fun _ _ _ _ _ _ => ⟨rfl, rfl⟩,
    fun _ _ _ _ => ⟨rfl, rfl, rfl⟩, fun _ _ _ _ => ⟨rfl, rfl, rfl⟩,
    fun _ _ _ _ _ => ⟨rfl, rfl, rfl⟩, fun _ _ _ _ => ⟨rfl, rfl, rfl⟩⟩

/-- The combinator around the sum is what the constructor returns for the state type of
the sum; reading from an empty buffer through it throws what the sum throws. -/
theorem AggregateFunctionMerge.no_new_failure_modes_witness :
    (construct AggregateFunctionSum AggregateFunctionSum.getStateType ([] : List Nat)
      sumWorld345).1 = .ok sumMerge ∧
    (sumMerge.deserialize 0 [] none 0 sumWorld345).1 =
      (AggregateFunctionSum.deserialize 0 [] none 0 sumWorld345.env).1 ∧
    (sumMerge.deserialize 0 [] none 0 sumWorld345).1 =
      .error ⟨.other 32, "attempt to read after the end of the buffer"⟩ ∧
    (sumMerge.merge 0 1 0 sumWorld345).1 = .ok () :=
  ⟨rfl,
    ((AggregateFunctionMerge.no_new_failure_modes AggregateFunctionSum
      AggregateFunctionSum.getStateType ([] : List Nat) sumWorld345 sumMerge rfl).2.2.2.2.2.1
        0 [] none 0 sumWorld345).1,
    rfl, rfl⟩

/-- C9: for every accumulator `place` and donor `rhs`, the parallel overload of `merge`
of the combinator (cancellation flag not set) followed by `insertResultInto` gives the
same extracted result as the sequential overload followed by `insertResultInto` whenever
that holds of the nested function, and only then; and the two capability flags of the
combinator are those of the nested function. -/
theorem AggregateFunctionMerge.parallel_merge_eq_sequential
    (self : AggregateFunctionMerge Fn W Field) :
    (∀ place rhs thread_pool arena to_ (w : World W),
      (extractAfter (self.mergeParallel place rhs thread_pool false arena w)
          (self.insertResultInto place to_ arena) to_ =
        extractAfter (self.merge place rhs arena w) (self.insertResultInto place to_ arena) to_
      ↔
      extractAfter (self.nested_func.mergeParallel place rhs thread_pool false arena w.env)
          (self.nested_func.insertResultInto place to_ arena) to_ =
        extractAfter (self.nested_func.merge place rhs arena w.env)
          (self.nested_func.insertResultInto place to_ arena) to_)) ∧
    self.isAbleToParallelizeMerge = self.nested_func.isAbleToParallelizeMerge ∧
    self.canOptimizeEqualKeysRanges = self.nested_func.canOptimizeEqualKeysRanges := by
  refine ⟨fun place rhs thread_pool arena to_ w => ?_, rfl, rfl⟩
  have hpar := extractAfter_call self.nested_func
    (self.nested_func.mergeParallel place rhs thread_pool false arena w.env)
    (w.calls ++ [Call.mergeParallel place rhs thread_pool false arena]) place to_ arena
  have hseq := extractAfter_call self.nested_func
    (self.nested_func.merge place rhs arena w.env)
    (w.calls ++ [Call.merge place rhs arena]) place to_ arena
  constructor
  · intro h
    rw [← hpar, ← hseq]
    exact h
  · intro h
    have h2 := hpar.trans (h.trans hseq.symm)
    exact h2

/-- The sum merged in parallel and merged sequentially through the combinator: the
extracted results agree, and both are the column with 3 + 4. -/
theorem AggregateFunctionMerge.parallel_merge_eq_sequential_witness :
    extractAfter (sumMerge.mergeParallel 1 2 0 false 0 sumWorld345)
        (sumMerge.insertResultInto 1 (IColumn.ColumnVector []) 0) (IColumn.ColumnVector []) =
      extractAfter (sumMerge.merge 1 2 0 sumWorld345)
        (sumMerge.insertResultInto 1 (IColumn.ColumnVector []) 0) (IColumn.ColumnVector []) ∧
    extractAfter (sumMerge.merge 1 2 0 sumWorld345)
        (sumMerge.insertResultInto 1 (IColumn.ColumnVector []) 0) (IColumn.ColumnVector []) =
      (.ok (), IColumn.ColumnVector [7]) :=
  ⟨((AggregateFunctionMerge.parallel_merge_eq_sequential sumMerge).1 1 2 0 0
      (IColumn.ColumnVector []) sumWorld345).mpr rfl, rfl⟩

/-- C7: for every optional version, `serialize` of the combinator writes the bytes that
`serialize` of the nested function writes, and `deserialize` of the combinator reads what
`deserialize` of the nested function reads, each with the same outcome and the same
environment afterwards; the one call each makes on the nested function carries the version
it was given, absent when absent.  Hence, when the nested function satisfies the
round-trip law for a version, so does the combinator: reading back through the combinator
what was written through it gives a state with the same `insertResultInto` output. -/
theorem AggregateFunctionMerge.serialize_deserialize_forward
    (self : AggregateFunctionMerge Fn W Field) (version : Option Nat) :
    (∀ place buf (w : World W),
      (self.serialize place buf version w).1 =
        (self.nested_func.serialize place buf version w.env).1 ∧
      (self.serialize place buf version w).2.1 =
        (self.nested_func.serialize place buf version w.env).2.1 ∧
      (self.serialize place buf version w).2.2.env =
        (self.nested_func.serialize place buf version w.env).2.2 ∧
      (self.serialize place buf version w).2.2.calls =
        w.calls ++ [Call.serialize place buf version]) ∧
    (∀ place buf arena (w : World W),
      (self.deserialize place buf version arena w).1 =
        (self.nested_func.deserialize place buf version arena w.env).1 ∧
      (self.deserialize place buf version arena w).2.1 =
        (self.nested_func.deserialize place buf version arena w.env).2.1 ∧
      (self.deserialize place buf version arena w).2.2.env =
        (self.nested_func.deserialize place buf version arena w.env).2.2 ∧
      (self.deserialize place buf version arena w).2.2.calls =
        w.calls ++ [Call.deserialize place buf version arena]) ∧
    (RoundTripLaw self.nested_func.serialize self.nested_func.create
        self.nested_func.deserialize self.nested_func.insertResultInto version →
      RoundTripLaw self.serialize self.create self.deserialize self.insertResultInto
        version) := by
  refine ⟨fun _ _ _ => ⟨rfl, rfl, rfl, rfl⟩, fun _ _ _ _ => ⟨rfl, rfl, rfl, rfl⟩, ?_⟩
  intro hF w s place arena to_ hne hser hcre
  exact hF w.env s place arena to_ hne hser hcre

/-! ## Folding partial states -/

/-- Merging a list of states into `place` through the combinator, when `merge` of the
nested function always returns and combines the values of the two states with `op`
without touching the value of any other state: the fold returns, the value at `place` is
the left fold of `op` over the values of the states, and the other values are intact. -/
theorem AggregateFunctionMerge.mergeEach_value {V : Type}
    (self : AggregateFunctionMerge Fn W Field) (place : AggregateDataPtr) (arena : ArenaPtr)
    (value : W → AggregateDataPtr → V) (op : V → V → V)
    (hmerge : ∀ env rhs, rhs ≠ place →
      (self.nested_func.merge place rhs arena env).1 = .ok () ∧
      value (self.nested_func.merge place rhs arena env).2 place =
        op (value env place) (value env rhs) ∧
      ∀ q, q ≠ place → value (self.nested_func.merge place rhs arena env).2 q = value env q) :
    ∀ (states : List ConstAggregateDataPtr) (w : World W), place ∉ states →
      (mergeEach (fun rhs => self.merge place rhs arena) states w).1 = .ok () ∧
      value (mergeEach (fun rhs => self.merge place rhs arena) states w).2.env place =
        (states.map (value w.env)).foldl op (value w.env place) ∧
      ∀ q, q ≠ place →
        value (mergeEach (fun rhs => self.merge place rhs arena) states w).2.env q =
          value w.env q := by
  intro states
  induction states with
  | nil => intro w _; simp [mergeEach]
  | cons rhs rest ih =>
    intro w hnot
    have hrhs : rhs ≠ place := fun h => hnot (by simp [h])
    have hrest : place ∉ rest := fun h => hnot (List.mem_cons_of_mem _ h)
    obtain ⟨hok, hval, hframe⟩ := hmerge w.env rhs hrhs
    have hstep : self.merge place rhs arena w =
        (.ok (), ⟨(self.nested_func.merge place rhs arena w.env).2,
          w.calls ++ [Call.merge place rhs arena]⟩) := by
      show ((self.nested_func.merge place rhs arena w.env).1, _) = _
      rw [hok]
    obtain ⟨ih1, ih2, ih3⟩ := ih ⟨(self.nested_func.merge place rhs arena w.env).2,
      w.calls ++ [Call.merge place rhs arena]⟩ hrest
    have hmap : rest.map (value (self.nested_func.merge place rhs arena w.env).2) =
        rest.map (value w.env) :=
      List.map_congr_left fun q hq => hframe q (fun h => hrest (h ▸ hq))
    simp only [mergeEach, hstep]
    refine ⟨ih1, ?_, fun q hq => ?_⟩
    · rw [ih2]
      simp only [List.map_cons, List.foldl_cons]
      rw [hmap, hval]
    · rw [ih3 q hq]
      exact hframe q hq

/-- C6: when `merge` of the nested function combines the values of two states with an
associative and commutative operation (always returning, and leaving the value of every
other state as it is), and the extracted result of a state depends on its value only,
then creating a state through the combinator, merging a list of partial states into it
through the combinator and extracting through the combinator gives the same result for
every permutation of the list. -/
theorem AggregateFunctionMerge.merge_order_irrelevant {V : Type}
    (self : AggregateFunctionMerge Fn W Field) (place : AggregateDataPtr) (arena : ArenaPtr)
    (value : W → AggregateDataPtr → V) (op : V → V → V)
    (hassoc : ∀ a b c, op (op a b) c = op a (op b c))
    (hcomm : ∀ a b, op a b = op b a)
    (hmerge : ∀ env rhs, rhs ≠ place →
      (self.nested_func.merge place rhs arena env).1 = .ok () ∧
      value (self.nested_func.merge place rhs arena env).2 place =
        op (value env place) (value env rhs) ∧
      ∀ q, q ≠ place → value (self.nested_func.merge place rhs arena env).2 q = value env q)
    (hextract : ∀ env env' to_, value env place = value env' place →
      (self.nested_func.insertResultInto place to_ arena env).1 =
        (self.nested_func.insertResultInto place to_ arena env').1 ∧
      (self.nested_func.insertResultInto place to_ arena env).2.1 =
        (self.nested_func.insertResultInto place to_ arena env').2.1)
    (states states' : List ConstAggregateDataPtr) (hperm : states.Perm states')
    (hplace : place ∉ states) (to_ : IColumn) (w : World W) :
    self.createMergeExtract place states to_ arena w =
      self.createMergeExtract place states' to_ arena w := by
  have hplace' : place ∉ states' := fun h => hplace (hperm.symm.subset h)
  unfold createMergeExtract
  rcases self.create place w with ⟨_ | _, w1⟩
  · rfl
  · obtain ⟨h1, h2, _⟩ := mergeEach_value self place arena value op hmerge states w1 hplace
    obtain ⟨h1', h2', _⟩ := mergeEach_value self place arena value op hmerge states' w1 hplace'
    have hfold : (states.map (value w1.env)).foldl op (value w1.env place) =
        (states'.map (value w1.env)).foldl op (value w1.env place) :=
      List.Perm.foldl_eq' (hperm.map _)
        (fun x _ y _ z => by rw [hassoc, hcomm x y, ← hassoc]) _
    have hvalue := (h2.trans hfold).trans h2'.symm
    obtain ⟨e1, e2⟩ := hextract _ _ to_ hvalue
    rcases hm : mergeEach (fun rhs => self.merge place rhs arena) states w1 with ⟨r, w2⟩
    rcases hm' : mergeEach (fun rhs => self.merge place rhs arena) states' w1 with ⟨r', w2'⟩
    rw [hm] at h1 e1 e2
    rw [hm'] at h1' e1 e2
    simp only at h1 h1' e1 e2
    subst h1
    subst h1'
    simp only [extractAfter, insertResultInto, IAggregateFunction.callInsertResultInto]
    rw [hm, hm']
    simp only
    rw [e1, e2]

/-! ## The worked example: partial sums -/

/-- The sum satisfies what the fold lemma asks of `merge`: it returns, adds the integer of
the other state to the integer at `place`, and leaves every other state as it is. -/
theorem AggregateFunctionSum.merge_adds (place : AggregateDataPtr) (arena : ArenaPtr)
    (env : SumEnv) (rhs : ConstAggregateDataPtr) (_hrhs : rhs ≠ place) :
    (AggregateFunctionSum.merge place rhs arena env).1 = .ok () ∧
    (AggregateFunctionSum.merge place rhs arena env).2.heap place =
      env.heap place + env.heap rhs ∧
    ∀ q, q ≠ place → (AggregateFunctionSum.merge place rhs arena env).2.heap q = env.heap q := by
  refine ⟨rfl, ?_, fun q hq => ?_⟩
  · simp [AggregateFunctionSum]
  · simp [AggregateFunctionSum, Function.update_noteq hq]

/-- The extracted result of a sum depends on the integer of the state only. -/
theorem AggregateFunctionSum.insertResultInto_value (place : AggregateDataPtr)
    (arena : ArenaPtr) (env env' : SumEnv) (to_ : IColumn)
    (h : env.heap place = env'.heap place) :
    (AggregateFunctionSum.insertResultInto place to_ arena env).1 =
      (AggregateFunctionSum.insertResultInto place to_ arena env').1 ∧
    (AggregateFunctionSum.insertResultInto place to_ arena env).2.1 =
      (AggregateFunctionSum.insertResultInto place to_ arena env').2.1 := by
  cases to_ <;> simp [AggregateFunctionSum, h]

/-- A left fold of integer addition is the start plus the sum of the list. -/
theorem foldl_add_eq_sum (values : List Int) (start : Int) :
    values.foldl (fun a b => a + b) start = start + values.sum := by
  induction values generalizing start with
  | nil => simp
  | cons v rest ih => simp [ih, add_assoc]

/-- The sum creates a state with the integer zero, and leaves every other state as it
is. -/
theorem AggregateFunctionSum.create_zero (place : AggregateDataPtr) (env : SumEnv) :
    (AggregateFunctionSum.create place env).1 = .ok () ∧
    (AggregateFunctionSum.create place env).2.heap place = 0 ∧
    ∀ q, q ≠ place → (AggregateFunctionSum.create place env).2.heap q = env.heap q := by
  refine ⟨rfl, ?_, fun q hq => ?_⟩
  · simp [AggregateFunctionSum]
  · simp [AggregateFunctionSum, Function.update_noteq hq]

/-- The sum appends the integer of the state to a column of values. -/
theorem AggregateFunctionSum.insertResultInto_appends (place : AggregateDataPtr)
    (arena : ArenaPtr) (env : SumEnv) (data : List Int) :
    (AggregateFunctionSum.insertResultInto place (IColumn.ColumnVector data) arena env).1 =
      .ok () ∧
    (AggregateFunctionSum.insertResultInto place (IColumn.ColumnVector data) arena env).2.1 =
      IColumn.ColumnVector (data ++ [env.heap place]) :=
  ⟨rfl, rfl⟩

/-- C3: when the nested function is an exact integer sum (its `create` gives a state of
value zero, its `merge` adds the value of the other state, its `insertResultInto` appends
the value of the state to the column, none throws), creating a state through the
combinator, merging into it through the combinator partial states that hold the values
`v1, ..., vn`, and extracting through the combinator appends `v1 + ... + vn` to the result
column. -/
theorem AggregateFunctionMerge.sum_of_partial_sums
    (self : AggregateFunctionMerge Fn W Field) (place : AggregateDataPtr) (arena : ArenaPtr)
    (value : W → AggregateDataPtr → Int)
    (hcreate : ∀ env, (self.nested_func.create place env).1 = .ok () ∧
      value (self.nested_func.create place env).2 place = 0 ∧
      ∀ q, q ≠ place → value (self.nested_func.create place env).2 q = value env q)
    (hmerge : ∀ env rhs, rhs ≠ place →
      (self.nested_func.merge place rhs arena env).1 = .ok () ∧
      value (self.nested_func.merge place rhs arena env).2 place =
        value env place + value env rhs ∧
      ∀ q, q ≠ place → value (self.nested_func.merge place rhs arena env).2 q = value env q)
    (hinsert : ∀ env data,
      (self.nested_func.insertResultInto place (IColumn.ColumnVector data) arena env).1 =
        .ok () ∧
      (self.nested_func.insertResultInto place (IColumn.ColumnVector data) arena env).2.1 =
        IColumn.ColumnVector (data ++ [value env place]))
    (states : List ConstAggregateDataPtr) (values : List Int) (data : List Int)
    (w : World W) (hplace : place ∉ states) (hvalues : states.map (value w.env) = values) :
    self.createMergeExtract place states (IColumn.ColumnVector data) arena w =
      (.ok (), IColumn.ColumnVector (data ++ [values.sum])) := by
  obtain ⟨c1, c2, c3⟩ := hcreate w.env
  have hcreated : self.create place w =
      (.ok (), ⟨(self.nested_func.create place w.env).2, w.calls ++ [Call.create place]⟩) := by
    show ((self.nested_func.create place w.env).1, _) = _
    rw [c1]
  obtain ⟨h1, h2, _⟩ := mergeEach_value self place arena value (fun a b => a + b) hmerge
    states ⟨(self.nested_func.create place w.env).2, w.calls ++ [Call.create place]⟩ hplace
  have hmap : states.map (value (self.nested_func.create place w.env).2) = values := by
    rw [← hvalues]
    exact List.map_congr_left fun q hq => c3 q (fun (h : q = place) => hplace (h ▸ hq))
  simp only [hmap, c2, foldl_add_eq_sum, zero_add] at h2
  unfold createMergeExtract
  rw [hcreated]
  simp only
  rcases hm : mergeEach (fun rhs => self.merge place rhs arena) states
    ⟨(self.nested_func.create place w.env).2, w.calls ++ [Call.create place]⟩ with ⟨r, w2⟩
  rw [hm] at h1 h2
  simp only at h1 h2
  subst h1
  obtain ⟨i1, i2⟩ := hinsert w2.env data
  simp only [extractAfter, insertResultInto, IAggregateFunction.callInsertResultInto, i1, i2,
    h2]

/-- The partial sums 3, 4 and 5 merged through the combinator around the sum give 12. -/
theorem AggregateFunctionMerge.sum_of_partial_sums_witness :
    sumMerge.createMergeExtract 0 [1, 2, 3] (IColumn.ColumnVector []) 0 sumWorld345 =
      (.ok (), IColumn.ColumnVector [12]) :=
  AggregateFunctionMerge.sum_of_partial_sums sumMerge 0 0 (fun env p => env.heap p)
    (fun env => AggregateFunctionSum.create_zero 0 env)
    (fun env rhs h => AggregateFunctionSum.merge_adds 0 0 env rhs h)
    (fun env data => AggregateFunctionSum.insertResultInto_appends 0 0 env data)
    [1, 2, 3] [3, 4, 5] [] sumWorld345 (by decide) rfl

/-- The partial sums 3, 4 and 5 merged through the combinator around the sum in the
orders 3, 4, 5 and 5, 3, 4: the extracted results agree. -/
theorem AggregateFunctionMerge.merge_order_irrelevant_witness :
    sumMerge.createMergeExtract 0 [1, 2, 3] (IColumn.ColumnVector []) 0 sumWorld345 =
      sumMerge.createMergeExtract 0 [3, 1, 2] (IColumn.ColumnVector []) 0 sumWorld345 :=
  AggregateFunctionMerge.merge_order_irrelevant sumMerge 0 0 (fun env p => env.heap p)
    (fun a b => a + b) (fun a b c => add_assoc a b c) (fun a b => add_comm a b)
    (fun env rhs h => AggregateFunctionSum.merge_adds 0 0 env rhs h)
    (fun env env' to_ h => AggregateFunctionSum.insertResultInto_value 0 0 env env' to_ h)
    [1, 2, 3] [3, 1, 2]
    (List.Perm.trans (List.Perm.cons 1 (List.Perm.swap 3 2 [])) (List.Perm.swap 3 1 [2]))
    (by decide) (IColumn.ColumnVector []) sumWorld345

/-! ## The worked example: the round trip of the sum -/

/-- Reading a varint back gives the number written and leaves the bytes after it. -/
theorem readVarUInt_writeVarUInt (n : Nat) (rest : List Nat) :
    readVarUInt (writeVarUInt n ++ rest) = some (n, rest) := by
  induction n using Nat.strong_induction_on with
  | _ n ih =>
    rw [writeVarUInt]
    by_cases h : n < 128
    · simp [h, readVarUInt]
    · have hlt : n / 128 < n := by omega
      have hge : ¬ n % 128 + 128 < 128 := by omega
      simp only [h, if_false, List.cons_append, readVarUInt, hge, ih (n / 128) hlt]
      have hn : n % 128 + 128 - 128 + 128 * (n / 128) = n := by omega
      rw [hn]

/-- Decoding the unsigned form of a signed integer gives the integer back. -/
theorem unZigZag_zigZag (z : Int) : unZigZag (zigZag z) = z := by
  unfold unZigZag zigZag
  by_cases h : 0 ≤ z
  · simp only [h, if_true]
    have h0 : 2 * z.toNat % 2 = 0 := by omega
    have h1 : 2 * z.toNat / 2 = z.toNat := by omega
    rw [if_pos h0, h1]
    omega
  · simp only [h, if_false]
    have h0 : ¬ (2 * (-z).toNat - 1) % 2 = 0 := by omega
    have h1 : ((2 * (-z).toNat - 1) / 2 + 1 : Nat) = (-z).toNat := by omega
    rw [if_neg h0, h1]
    omega

/-- The sum satisfies the round-trip law, whatever the version. -/
theorem AggregateFunctionSum.roundTrip (version : Option Nat) :
    RoundTripLaw AggregateFunctionSum.serialize AggregateFunctionSum.create
      AggregateFunctionSum.deserialize AggregateFunctionSum.insertResultInto version := by
  intro x s place arena to_ _ _ _
  have hread : readVarUInt (writeVarUInt (zigZag (x.heap s))) =
      some (zigZag (x.heap s), []) := by
    simpa using readVarUInt_writeVarUInt (zigZag (x.heap s)) []
  cases to_ <;>
    simp [AggregateFunctionSum, extractAfter, hread, unZigZag_zigZag]

/-- The combinator around the sum satisfies the round-trip law without a version, and
what it writes for the state at address 1 is what the sum writes. -/
theorem AggregateFunctionMerge.serialize_deserialize_forward_witness :
    RoundTripLaw sumMerge.serialize sumMerge.create sumMerge.deserialize
      sumMerge.insertResultInto none ∧
    (sumMerge.serialize 1 [] none sumWorld345).2.1 =
      (AggregateFunctionSum.serialize 1 [] none sumWorld345.env).2.1 :=
  ⟨(AggregateFunctionMerge.serialize_deserialize_forward sumMerge none).2.2
      (AggregateFunctionSum.roundTrip none),
    ((AggregateFunctionMerge.serialize_deserialize_forward sumMerge none).1 1 []
      sumWorld345).2.1⟩

end DB
